import Mathlib

/-
Verification of the Othello environment (src/othello.py) against its design
specification.  The board planes, the `step` transition of `OthelloEnv`
(validation, 8-direction scan, capture flips) and `OthelloState.perspective`
are embedded below; claims about components the repository only specifies
(the initial position, the legal-move rule of §4.2) are modelled from the
spec and marked as such in their doc comments.
-/

namespace Othello

/-- Occupancy planes of an `OthelloState.board` (othello.py lines 40-49): an
array of shape `(2, 8, 8)`; channel 0 holds agent 0's (black) stones, channel
1 agent 1's (white).  The numpy int entries are only ever 0 or 1 and are only
tested for truthiness, so they are modelled as `Bool`. -/
abbrev Board := Fin 2 → Fin 8 → Fin 8 → Bool

/-- Numpy indexing of an axis of length 8 with a Python int: indices in
`[0, 8)` index directly, indices in `[-8, 0)` wrap around to the opposite
edge, and anything else raises `IndexError` (modelled as `none`). -/
def npIdx (i : Int) : Option (Fin 8) :=
  if h : 0 ≤ i ∧ i < 8 then some ⟨i.toNat, by omega⟩
  else if h2 : -8 ≤ i ∧ i < 0 then some ⟨(i + 8).toNat, by omega⟩
  else none

/-- Failures of `OthelloEnv.step`.  The first five are the `ValueError`s the
source raises explicitly (othello.py lines 200, 202, 204, 206, 233); the
last is a numpy `IndexError` escaping from an unguarded board access in the
direction scan. -/
inductive StepErr where
  /-- "out of board" (line 200). -/
  | outOfBoard
  /-- "invalid agent_id" (line 202). -/
  | invalidAgent
  /-- "cannot put a stone on opponent's stone" (line 204). -/
  | occupiedOpponent
  /-- "cannot put a stone on another stone" (line 206). -/
  | occupiedOwn
  /-- "There is no stones to flip" (line 233). -/
  | noFlip
  /-- Numpy `IndexError` raised by a scan read with an index outside `[-8, 8)`. -/
  | indexError
  deriving DecidableEq, Repr

/-- `OthelloEnv._check_in_range` (othello.py lines 242-245) at its only call
site, where `pos = [r, c]` and `bottom_right` defaults to `[8, 8]`:
`np.all(np.logical_and([0, 0] <= pos, pos < [8, 8]))`. -/
def check_in_range (r c : Int) : Bool :=
  (decide (0 ≤ r) && decide (r < 8)) && (decide (0 ≤ c) && decide (c < 8))

/-- One numpy write `arr[ch][p.1][p.2] = v` on a `(2, 8, 8)` board array. -/
def writeCell (bd : Board) (ch : Fin 2) (p : Fin 8 × Fin 8) (v : Bool) : Board :=
  fun ch2 r2 c2 => if ch2 = ch ∧ r2 = p.1 ∧ c2 = p.2 then v else bd ch2 r2 c2

/-- The two writes that flip one captured stone (othello.py lines 226-227):
`board[1-agent_id][s] = 0` then `board[agent_id][s] = 1`. -/
def flipStone (bd : Board) (own opp : Fin 2) (s : Fin 8 × Fin 8) : Board :=
  writeCell (writeCell bd opp s false) own s true

/-- One direction of the scan loop (othello.py lines 214-230), reading the
*input* board `b` (`state.board`): starting from the acted cell, step
`(dr, dc)` at a time for up to `n` remaining iterations of
`for _ in range(1, board_size)` (so 7 in total).  Opposing stones are
accumulated into `acc` (`stones_to_flip`); a same-player stone returns the
accumulated run (`.ok acc`, empty when nothing is captured); an empty cell,
or falling out of the loop with the run still open, captures nothing
(`.ok []`).  The source indexes `state.board[...][temp_r][temp_c]` without
any bounds check, so an index outside `[-8, 8)` raises `IndexError`
(`.error ()`) and indices in `[-8, 0)` wrap to the opposite edge; the cells
pushed into `acc` are the physical cells those indices resolve to, which is
also where the later writes `board[...][a_stone[0]][a_stone[1]]` land. -/
def scanDirAux (b : Board) (own opp : Fin 2) (dr dc : Int) :
    Int → Int → List (Fin 8 × Fin 8) → Nat → Except Unit (List (Fin 8 × Fin 8))
  | _, _, _, 0 => .ok []
  | tr, tc, acc, n+1 =>
    let tr2 := tr + dr
    let tc2 := tc + dc
    match npIdx tr2, npIdx tc2 with
    | some pr, some pc =>
      if b opp pr pc then scanDirAux b own opp dr dc tr2 tc2 (acc ++ [(pr, pc)]) n
      else if b own pr pc then .ok acc
      else .ok []
    | _, _ => .error ()

/-- The scan of one direction from the acted cell `(r, c)`: 7 iterations,
starting with an empty `stones_to_flip`. -/
def scanDir (b : Board) (own opp : Fin 2) (r c dr dc : Int) :
    Except Unit (List (Fin 8 × Fin 8)) :=
  scanDirAux b own opp dr dc r c [] 7

/-- The direction list of othello.py line 210, in source order. -/
def directions : List (Int × Int) :=
  [(1, 1), (1, 0), (1, -1), (0, -1), (-1, -1), (-1, 0), (-1, 1), (0, 1)]

/-- The two numpy arrays `step` works with: the input `state.board`, and the
local copy `board = np.copy(state.board)` (othello.py line 208) that the
flip writes mutate. -/
structure Mem where
  stateBoard : Board
  localBoard : Board
  deriving DecidableEq

/-- The flips of one qualifying direction applied to the local copy
(othello.py lines 225-227), in scan order. -/
def applyFlips (m : Mem) (own opp : Fin 2) (stones : List (Fin 8 × Fin 8)) : Mem :=
  { m with localBoard := stones.foldl (fun bd s => flipStone bd own opp s) m.localBoard }

/-- The direction loop of othello.py lines 212-230: every scan reads
`m.stateBoard` (the source always reads `state.board`, never the copy), the
flips of each qualifying direction are written to the local copy as soon as
that direction's scan closes, and `flipped` records whether any direction
flipped.  A scan `IndexError` propagates out of `step` with the memory as it
stood. -/
def runDirs (own opp : Fin 2) (r c : Int) :
    List (Int × Int) → Mem → Bool → Except StepErr Bool × Mem
  | [], m, flipped => (.ok flipped, m)
  | d :: rest, m, flipped =>
    match scanDir m.stateBoard own opp r c d.1 d.2 with
    | .error _ => (.error .indexError, m)
    | .ok stones =>
      runDirs own opp r c rest (applyFlips m own opp stones) (flipped || !stones.isEmpty)

/-- `OthelloEnv.step` (othello.py lines 155-240) on the input `state.board`
`b`, acting `agent_id` and action `(r, c)` (already coerced to ints by line
196-197): validation in source order (bounds, agent id, opponent stone, own
stone), then `board = np.copy(state.board)`, the direction loop, and the
`not flipped` check.  The body of the function ends after that check with no
return statement, so `.ok ()` is the path on which the source returns
`None`.  The second component is the final state of the two arrays. -/
def stepMem (b : Board) (agent_id r c : Int) : Except StepErr Unit × Mem :=
  let m0 : Mem := { stateBoard := b, localBoard := b }
  if h : check_in_range r c = true then
    if 0 ≤ agent_id ∧ agent_id ≤ 1 then
      let own : Fin 2 := if agent_id = 0 then 0 else 1
      let opp : Fin 2 := if agent_id = 0 then 1 else 0
      let pr : Fin 8 := ⟨r.toNat, by
        simp only [check_in_range, Bool.and_eq_true, decide_eq_true_eq] at h; omega⟩
      let pc : Fin 8 := ⟨c.toNat, by
        simp only [check_in_range, Bool.and_eq_true, decide_eq_true_eq] at h; omega⟩
      if b opp pr pc then (.error .occupiedOpponent, m0)
      else if b own pr pc then (.error .occupiedOwn, m0)
      else
        match runDirs own opp r c directions m0 false with
        | (.ok flipped, m) => if flipped then (.ok (), m) else (.error .noFlip, m)
        | (.error e, m) => (.error e, m)
    else (.error .invalidAgent, m0)
  else (.error .outOfBoard, m0)

/-- The board `step` computes: the final value of the local copy `board` on
the path on which the source reaches the end of the function.  The source
discards it (there is no return statement), so this is the specification
handle on the flip result; `step` below models the value actually returned. -/
def stepBoard (b : Board) (agent_id r c : Int) : Except StepErr Board :=
  match stepMem b agent_id r c with
  | (.ok _, m) => .ok m.localBoard
  | (.error e, _) => .error e

/-- The value `OthelloEnv.step` actually returns: the function body has no
return statement on the success path, so a successful call returns Python
`None`, modelled as `.ok none` — no new `OthelloState` (and no board) is
produced. -/
def step (b : Board) (agent_id r c : Int) : Except StepErr (Option Board) :=
  match stepMem b agent_id r c with
  | (.ok _, _) => .ok none
  | (.error e, _) => .error e

/-- Failures of `OthelloState.perspective`. -/
inductive PerspErr where
  /-- `np.stack` is given `np.fliplr(self.board[0])`, an `(8, 8)` array, as
  its `axis` argument; numpy raises `TypeError` normalising it. -/
  | stackAxisTypeError
  deriving DecidableEq, Repr

/-- `OthelloState.perspective` (othello.py lines 120-142) applied to the
state's board: for `agent_id = 0` it returns `self.board` itself; for any
other agent id it evaluates `np.stack(np.fliplr(self.board[1]),
np.fliplr(self.board[0]))`, which passes the second flipped plane as
`np.stack`'s positional `axis` argument and therefore raises `TypeError`
before returning anything. -/
def perspective (b : Board) (agent_id : Int) : Except PerspErr Board :=
  if agent_id = 0 then .ok b
  else .error .stackAxisTypeError

/-- Modelled from the spec: `initialize` is called by the harnesses
(`speed_test.py` line 80) but is absent from src/; §3 and §8 of the spec fix
it to the canonical four-stone centre arrangement.  Agent 0 (black) holds
(3, 4) and (4, 3), agent 1 (white) holds (3, 3) and (4, 4) — the arrangement
under which §8's scenario (player 0 at (2, 3) flips exactly (3, 3)) holds. -/
def initBoard : Board := fun ch r c =>
  match ch.val, r.val, c.val with
  | 0, 3, 4 => true
  | 0, 4, 3 => true
  | 1, 3, 3 => true
  | 1, 4, 4 => true
  | _, _, _ => false

/-- Modelled from the spec: the §4.2 LegalMoveCalculator direction rule,
absent from src/ (only the unfinished comment at othello.py lines 235-237
points at it).  Scanning outward up to `board_size - 1` steps, a direction
qualifies iff it meets one or more contiguous opposing stones immediately
followed by a same-player stone *before running off the board* or hitting an
empty cell; `seenOpp` records whether at least one opposing stone has been
passed. -/
def specScanAux (b : Board) (own opp : Fin 2) (dr dc : Int) :
    Int → Int → Bool → Nat → Bool
  | _, _, _, 0 => false
  | tr, tc, seenOpp, n+1 =>
    let tr2 := tr + dr
    let tc2 := tc + dc
    if h : 0 ≤ tr2 ∧ tr2 < 8 ∧ 0 ≤ tc2 ∧ tc2 < 8 then
      let pr : Fin 8 := ⟨tr2.toNat, by omega⟩
      let pc : Fin 8 := ⟨tc2.toNat, by omega⟩
      if b opp pr pc then specScanAux b own opp dr dc tr2 tc2 true n
      else if b own pr pc then seenOpp
      else false
    else false

/-- Modelled from the spec: §4.2's per-direction qualification of the cell
`(r, c)` for the player owning plane `own`. -/
def qualifiesSpec (b : Board) (own opp : Fin 2) (r c dr dc : Int) : Bool :=
  specScanAux b own opp dr dc r c false 7

/-- Modelled from the spec: §4.2's legal-move plane entry — an empty cell is
legal iff some one of the 8 directions qualifies it. -/
def legalMoveSpec (b : Board) (own opp : Fin 2) (r c : Fin 8) : Bool :=
  !(b 0 r c) && !(b 1 r c) &&
    directions.any (fun d => qualifiesSpec b own opp (r.val : Int) (c.val : Int) d.1 d.2)

/-- Occupancy exclusivity (§3, §8): no cell is occupied by both players. -/
def exclusive (b : Board) : Prop :=
  ∀ p q : Fin 8, ¬(b 0 p q = true ∧ b 1 p q = true)

/-- Both occupancy rejections of othello.py lines 203-206 realise the spec's
`CellOccupied` failure (§4.3). -/
def isCellOccupied : Except StepErr Unit → Bool
  | .error .occupiedOpponent => true
  | .error .occupiedOwn => true
  | _ => false

/-- A board with a single agent-0 stone at (1, 6) and a single agent-1 stone
at (1, 7), used to exercise the unguarded scan across the left edge. -/
def wrapBoard : Board := fun ch r c =>
  match ch.val, r.val, c.val with
  | 0, 1, 6 => true
  | 1, 1, 7 => true
  | _, _, _ => false

instance (b : Board) : Decidable (exclusive b) :=
  inferInstanceAs (Decidable (∀ p q : Fin 8, ¬(b 0 p q = true ∧ b 1 p q = true)))

/-- `_check_in_range` holds exactly on `[0, 8) × [0, 8)`. -/
theorem check_in_range_iff (r c : Int) :
    check_in_range r c = true ↔ (0 ≤ r ∧ r < 8 ∧ 0 ≤ c ∧ c < 8) := by
  simp [check_in_range, and_assoc]

/-- The direction loop never touches `state.board`: its final memory keeps
the input board verbatim. -/
theorem runDirs_stateBoard (own opp : Fin 2) (r c : Int) :
    ∀ (dirs : List (Int × Int)) (m : Mem) (f : Bool),
      ((runDirs own opp r c dirs m f).2).stateBoard = m.stateBoard := by
  intro dirs
  induction dirs with
  | nil => intro m f; rfl
  | cons d rest ih =>
    intro m f
    rw [runDirs]
    split
    · rfl
    · rw [ih]; rfl

/-- The direction loop can only fail with `indexError`, never with the
bounds-validation error. -/
theorem runDirs_not_outOfBoard (own opp : Fin 2) (r c : Int) :
    ∀ (dirs : List (Int × Int)) (m : Mem) (f : Bool),
      (runDirs own opp r c dirs m f).1 ≠ Except.error StepErr.outOfBoard := by
  intro dirs
  induction dirs with
  | nil => intro m f h; exact Except.noConfusion h
  | cons d rest ih =>
    intro m f
    rw [runDirs]
    split
    · intro h; exact StepErr.noConfusion (Except.error.inj h)
    · exact ih _ _

/-- Flipping one stone writes the cell to exactly one player's plane (the
acting player's), clearing the other, so exclusivity survives. -/
theorem exclusive_flipStone (bd : Board) (own opp : Fin 2) (s : Fin 8 × Fin 8)
    (hne : own ≠ opp) (h : exclusive bd) : exclusive (flipStone bd own opp s) := by
  intro p q hpq
  rcases hpq with ⟨h0, h1⟩
  by_cases hs : p = s.1 ∧ q = s.2
  · rcases hs with ⟨hp, hq⟩
    subst hp
    subst hq
    fin_cases own <;> fin_cases opp <;> simp_all [flipStone, writeCell]
  · have key : ∀ ch : Fin 2, flipStone bd own opp s ch p q = bd ch p q := by
      intro ch
      unfold flipStone writeCell
      rw [if_neg, if_neg] <;> tauto
    rw [key 0] at h0
    rw [key 1] at h1
    exact h p q ⟨h0, h1⟩

/-- Exclusivity survives a whole run of flips. -/
theorem exclusive_foldlFlips (own opp : Fin 2) (hne : own ≠ opp) :
    ∀ (stones : List (Fin 8 × Fin 8)) (bd : Board), exclusive bd →
      exclusive (stones.foldl (fun bd2 s => flipStone bd2 own opp s) bd) := by
  intro stones
  induction stones with
  | nil => intro bd h; exact h
  | cons s rest ih =>
    intro bd h
    exact ih _ (exclusive_flipStone bd own opp s hne h)

/-- Exclusivity of the local copy survives the whole direction loop. -/
theorem runDirs_exclusive (own opp : Fin 2) (hne : own ≠ opp) (r c : Int) :
    ∀ (dirs : List (Int × Int)) (m : Mem) (f : Bool), exclusive m.localBoard →
      exclusive ((runDirs own opp r c dirs m f).2).localBoard := by
  intro dirs
  induction dirs with
  | nil => intro m f h; exact h
  | cons d rest ih =>
    intro m f h
    rw [runDirs]
    split
    · exact h
    · exact ih _ _ (exclusive_foldlFlips own opp hne _ m.localBoard h)

/-- On every path of `step`, the local board copy stays exclusive when the
input board was. -/
theorem stepMem_localBoard_exclusive (b : Board) (agent_id r c : Int)
    (hb : exclusive b) : exclusive ((stepMem b agent_id r c).2).localBoard := by
  have hex0 : exclusive ((runDirs (0 : Fin 2) 1 r c directions ⟨b, b⟩ false).2).localBoard :=
    runDirs_exclusive 0 1 (by decide) r c directions ⟨b, b⟩ false hb
  have hex1 : exclusive ((runDirs (1 : Fin 2) 0 r c directions ⟨b, b⟩ false).2).localBoard :=
    runDirs_exclusive 1 0 (by decide) r c directions ⟨b, b⟩ false hb
  simp only [stepMem]
  repeat' split
  all_goals first
    | exact hb
    | (rename_i flipped m heq hflip
       first
         | (rw [heq] at hex0; exact hex0)
         | (rw [heq] at hex1; exact hex1))
    | (rename_i e m heq
       first
         | (rw [heq] at hex0; exact hex0)
         | (rw [heq] at hex1; exact hex1))

/-- C1: the claim states that for every state, acting player and validated
action, `step` returns a new GameState with the move applied, both players'
legal-move planes recomputed from the post-flip board, and `done` the
conjunction of both planes being all-false.  The code's success path has no
return statement: at the classic legal opening move (player 0 at (2, 3) on
the initial board) the call succeeds but returns Python `None` — no
GameState, no board, no legal-move planes, no `done` flag. -/
theorem step_returns_no_state : step initBoard 0 2 3 = .ok none := rfl

/-- C2: the claim states that after a successful step by player p at (r, c)
the resulting board contains p's stone at (r, c) together with all
qualifying flips.  On the initial board, player 0 acting at (2, 3), the
board the code computes does apply the qualifying flip at (3, 3) (moved to
plane 0, cleared from plane 1) but never writes the placed stone: cell
(2, 3) is still empty on the acting player's plane. -/
theorem step_omits_placed_stone :
    (stepBoard initBoard 0 2 3).toOption.map (fun bd => (bd 0 2 3, bd 0 3 3, bd 1 3 3)) =
      some (false, true, false) := rfl

/-- C3: the claim states that a direction qualifies an empty cell iff the
scan meets ≥1 contiguous opposing stones immediately followed by a
same-player stone, and that a direction running off the board without a
closing stone does not qualify.  On `wrapBoard` the cell (1, 0) is empty and
the westward direction (0, -1) leaves the board at its first step, so per
the claim it must not qualify; the code's scan instead wraps to column 7,
finds the opposing stone at (1, 7) and the closing stone at (1, 6), and
qualifies the direction with (1, 7) as its captured run. -/
theorem scan_qualifies_across_left_edge :
    wrapBoard 0 1 0 = false ∧ wrapBoard 1 1 0 = false ∧
      scanDir wrapBoard 0 1 1 0 0 (-1) = .ok [(1, 7)] ∧
      qualifiesSpec wrapBoard 0 1 1 0 0 (-1) = false :=
  ⟨rfl, rfl, rfl, rfl⟩

/-- C4: the claim states that for every in-bounds action the scan only ever
indexes the board inside `[0, board_size)` and never raises `IndexError`.
The action (0, 7) on the initial board is in bounds and its target cell is
empty, yet the very first scanned direction (1, 1) reads column 8 and the
step raises `IndexError`. -/
theorem scan_raises_index_error_on_edge_action :
    (stepMem initBoard 0 0 7).1 = .error .indexError := rfl

/-- C5: for every input board, agent and action, `step` leaves the input
state's planes untouched whether it returns or raises — every write of the
flip loop lands in the local `np.copy` and `state.board` is never written. -/
theorem step_preserves_input_board (b : Board) (agent_id r c : Int) :
    (stepMem b agent_id r c).2.stateBoard = b := by
  rcases hrun0 : runDirs (0 : Fin 2) 1 r c directions ⟨b, b⟩ false with ⟨res0, m0⟩
  rcases hrun1 : runDirs (1 : Fin 2) 0 r c directions ⟨b, b⟩ false with ⟨res1, m1⟩
  have hm0 : m0.stateBoard = b := by
    have h := runDirs_stateBoard 0 1 r c directions ⟨b, b⟩ false
    rw [hrun0] at h; exact h
  have hm1 : m1.stateBoard = b := by
    have h := runDirs_stateBoard 1 0 r c directions ⟨b, b⟩ false
    rw [hrun1] at h; exact h
  simp only [stepMem]
  split
  · split
    · split
      · split
        · rfl
        · split
          · rfl
          · rw [hrun0]
            cases res0 with
            | ok f0 => dsimp only; split <;> exact hm0
            | error e0 => exact hm0
      · split
        · rfl
        · split
          · rfl
          · rw [hrun1]
            cases res1 with
            | ok f1 => dsimp only; split <;> exact hm1
            | error e1 => exact hm1
    · rfl
  · rfl

/-- C6: the claim states that `step` fails with `IllegalMove` on every
in-bounds empty cell that is not in the acting player's legal-move plane
(equivalently, for which no direction yields a capturable run per §4.2), the
check being made against precomputed legality.  On `wrapBoard` the cell
(1, 0) is not legal for player 0 — §4.2's plane is false there, every
direction either hits an empty cell at once or runs off the board — yet the
code, which re-derives legality by its own unguarded scan instead of
consulting `legal_actions`, accepts the move and succeeds. -/
theorem step_accepts_spec_illegal_cell :
    legalMoveSpec wrapBoard 0 1 1 0 = false ∧ (stepMem wrapBoard 0 1 0).1 = .ok () :=
  ⟨rfl, rfl⟩

/-- C7: for every board, agent id and action, `step` fails with the
out-of-board error exactly when (r, c) lies outside `[0, 8) × [0, 8)`, and
this validation comes first — the equivalence holds for every agent id and
board content, occupied or not. -/
theorem step_out_of_board_iff (b : Board) (agent_id r c : Int) :
    (stepMem b agent_id r c).1 = .error .outOfBoard ↔
      ¬(0 ≤ r ∧ r < 8 ∧ 0 ≤ c ∧ c < 8) := by
  rcases hrun0 : runDirs (0 : Fin 2) 1 r c directions ⟨b, b⟩ false with ⟨res0, m0⟩
  rcases hrun1 : runDirs (1 : Fin 2) 0 r c directions ⟨b, b⟩ false with ⟨res1, m1⟩
  have hr0 : res0 ≠ Except.error StepErr.outOfBoard := by
    have h := runDirs_not_outOfBoard 0 1 r c directions ⟨b, b⟩ false
    rw [hrun0] at h; exact h
  have hr1 : res1 ≠ Except.error StepErr.outOfBoard := by
    have h := runDirs_not_outOfBoard 1 0 r c directions ⟨b, b⟩ false
    rw [hrun1] at h; exact h
  simp only [stepMem]
  split
  · next hc =>
    apply iff_of_false
    · split
      · split
        · split
          · simp
          · split
            · simp
            · rw [hrun0]
              cases res0 with
              | ok f0 => dsimp only; split <;> simp
              | error e0 =>
                dsimp only
                intro hcon
                exact hr0 (by rw [Except.error.inj hcon])
        · split
          · simp
          · split
            · simp
            · rw [hrun1]
              cases res1 with
              | ok f1 => dsimp only; split <;> simp
              | error e1 =>
                dsimp only
                intro hcon
                exact hr1 (by rw [Except.error.inj hcon])
      · simp
    · exact not_not_intro ((check_in_range_iff r c).mp hc)
  · next hc =>
    exact iff_of_true rfl (fun hin => hc ((check_in_range_iff r c).mpr hin))

/-- C8: for every board, valid agent and in-bounds action whose target cell
is occupied by either player — the acting player's own stone or the
opponent's — `step` fails with one of the two occupancy errors realising the
spec's `CellOccupied`. -/
theorem step_rejects_occupied_cell (b : Board) (agent_id : Int) (p q : Fin 8)
    (ha : 0 ≤ agent_id ∧ agent_id ≤ 1)
    (hocc : b 0 p q = true ∨ b 1 p q = true) :
    isCellOccupied (stepMem b agent_id (p.val : Int) (q.val : Int)).1 = true := by
  have hc : check_in_range (p.val : Int) (q.val : Int) = true := by
    rw [check_in_range_iff]
    have hp := p.isLt
    have hq := q.isLt
    omega
  simp only [stepMem]
  repeat' split
  all_goals first
    | rfl
    | (exact absurd ha (by assumption))
    | (exact absurd hc (by assumption))
    | (exfalso
       simp only [Int.toNat_natCast, Fin.eta] at *
       rcases hocc with h | h <;> simp_all)

theorem step_rejects_occupied_cell_witness :
    isCellOccupied (stepMem initBoard 0 3 3).1 = true :=
  step_rejects_occupied_cell initBoard 0 3 3 ⟨by decide, by decide⟩ (Or.inr rfl)

/-- C9: occupancy exclusivity — the initial position is exclusive, and every
board produced by a successful pass through `step`'s flip loop from an
exclusive board is again exclusive: each flip writes the cell to exactly one
player's plane and clears the other. -/
theorem occupancy_exclusivity_invariant :
    exclusive initBoard ∧
      ∀ (b : Board) (agent_id r c : Int) (b2 : Board),
        exclusive b → stepBoard b agent_id r c = .ok b2 → exclusive b2 := by
  constructor
  · decide
  · intro b agent_id r c b2 hb hok
    have h := stepMem_localBoard_exclusive b agent_id r c hb
    unfold stepBoard at hok
    rcases hm : stepMem b agent_id r c with ⟨res, m⟩
    rw [hm] at hok h
    cases res with
    | ok u =>
      have hloc : m.localBoard = b2 := by simpa using hok
      rw [← hloc]
      exact h
    | error e => exact absurd hok (by simp)

theorem occupancy_exclusivity_invariant_witness :
    exclusive (flipStone initBoard 0 1 (3, 3)) :=
  occupancy_exclusivity_invariant.2 initBoard 0 2 3 (flipStone initBoard 0 1 (3, 3))
    (by decide) rfl

/-- C10: the claim states that `perspective(player)` relabels the planes
only — plane 0 becomes the calling player's stones at the same coordinates,
with no spatial transform.  That holds trivially for agent 0 (the board is
returned as is), but for agent 1 the source builds
`np.stack(np.fliplr(board[1]), np.fliplr(board[0]))`: a left-right spatial
mirror, and one that moreover passes an array as `np.stack`'s `axis`
argument, so the call raises `TypeError` instead of returning any board. -/
theorem perspective_agent1_fails :
    (∀ b : Board, perspective b 0 = .ok b) ∧
      perspective initBoard 1 = .error .stackAxisTypeError :=
  ⟨fun _ => rfl, rfl⟩

end Othello
